import Mathlib

/-!
Shallow embedding of the webmock route registry, matching and rendering
engine (src/webmock.go) together with the option combinators and the
cassette loader.  Go maps are modelled as association lists, Go strings
as Lean strings (with the byte-level operations restated on `List Char`),
and the `log.Fatal` / panic paths as `Option`.
-/

namespace Webmock

/-- Models Go `strings.Split` with a one-character separator: splitting the
empty string yields `[[]]`, and every occurrence of the separator starts a
new (possibly empty) segment. -/
def splitChar (sep : Char) : List Char → List (List Char)
  | [] => [[]]
  | c :: cs =>
    let r := splitChar sep cs
    if c = sep then [] :: r
    else (c :: r.headD []) :: r.tail

/-- Models Go `strings.Cut` at the first occurrence of a one-character
separator, returning the text before and after it (the remainder is empty
when the separator does not occur). -/
def cutChar (sep : Char) : List Char → List Char × List Char
  | [] => ([], [])
  | c :: cs =>
    if c = sep then ([], cs)
    else
      let p := cutChar sep cs
      (c :: p.1, p.2)

/-- Models Go `unicode.IsSpace` on the Latin-1 range (the range exercised by
header strings): tab, newline, vertical tab, form feed, carriage return,
space, next line and no-break space. -/
def isSpaceChar (c : Char) : Bool :=
  c.toNat = 9 || c.toNat = 10 || c.toNat = 11 || c.toNat = 12 ||
  c.toNat = 13 || c.toNat = 32 || c.toNat = 133 || c.toNat = 160

/-- Models Go `strings.TrimSpace`: drop leading and trailing white space. -/
def trimSpace (s : String) : String :=
  ⟨((s.data.dropWhile isSpaceChar).reverse.dropWhile isSpaceChar).reverse⟩

/-- Models `validHeaderFieldByte` of net/textproto: the HTTP token
characters (digits, letters, and the punctuation allowed in field names). -/
def validHeaderFieldChar (c : Char) : Bool :=
  let n := c.toNat
  (48 ≤ n && n ≤ 57) || (65 ≤ n && n ≤ 90) || (97 ≤ n && n ≤ 122) ||
  n = 33 || n = 35 || n = 36 || n = 37 || n = 38 || n = 39 || n = 42 ||
  n = 43 || n = 45 || n = 46 || n = 94 || n = 95 || n = 96 || n = 124 || n = 126

/-- The canonicalisation loop of net/textproto `canonicalMIMEHeaderKey`:
upper-case a letter that starts the key or follows a hyphen, lower-case
every other letter. -/
def canonicalChars : Bool → List Char → List Char
  | _, [] => []
  | upper, c :: cs =>
    let c2 := if upper then c.toUpper else c.toLower
    c2 :: canonicalChars (c2 = '-') cs

/-- Models net/textproto `CanonicalMIMEHeaderKey`: canonicalise the case of
the key, or return it unchanged when it holds a character that is not a
valid header field byte. -/
def canonicalMIMEHeaderKey (s : String) : String :=
  if s.data.all validHeaderFieldChar then ⟨canonicalChars true s.data⟩ else s

/-- Models net/http `Header`: a map from field names to lists of values,
as an association list (a Go map has at most one entry per name). -/
abbrev Header := List (String × List String)

/-- Models `http.Header.Get` (via `textproto.MIMEHeader.Get`): canonicalise
the key, look it up, and return the first value, or `""` when the key is
absent or its value list is empty. -/
def headerGet (h : Header) (key : String) : String :=
  match h.find? (fun p => p.1 == canonicalMIMEHeaderKey key) with
  | some p => p.2.headD ""
  | none => ""

/-- Models `http.Header.Add` (via `textproto.MIMEHeader.Add`): canonicalise
the key and append the value to its entry, creating the entry if needed. -/
def headerAdd (h : Header) (key value : String) : Header :=
  let ck := canonicalMIMEHeaderKey key
  if h.any (fun p => p.1 == ck) then
    h.map (fun p => if p.1 == ck then (p.1, p.2 ++ [value]) else p)
  else
    h ++ [(ck, [value])]

/-- The `route` struct of webmock.go.  The two `map[string]string` fields
are association lists; a nil map is the empty list, and the zero values of
the remaining fields are `""` and `0`. -/
structure Route where
  domain : String
  method : String
  path : String
  query : String
  requestHeaders : List (String × String)
  statusCode : Int
  body : String
  responseHeaders : List (String × String)
deriving DecidableEq, Repr

/-- The parts of `http.Request` read by the matcher: `r.Method`,
`r.URL.Path`, `r.URL.RawQuery` and `r.Header`. -/
structure Request where
  method : String
  path : String
  rawQuery : String
  header : Header
deriving DecidableEq, Repr

/-- The observable response written by `ServeHTTP`: the status passed to
`WriteHeader`, the headers set on the writer, and the body written. -/
structure Response where
  status : Int
  headers : List (String × String)
  body : String
deriving DecidableEq, Repr

/-- `headersMatch` of webmock.go: every required header entry must have its
value equal to `http.Header.Get` of its name on the request. -/
def headersMatch (routeHeaders : List (String × String)) (requestHeader : Header) : Bool :=
  routeHeaders.all (fun p => p.2 == headerGet requestHeader p.1)

/-- `routeMatch` of webmock.go: path, method and raw query must be equal as
strings, and the required headers must match. -/
def routeMatch (rt : Route) (r : Request) : Bool :=
  rt.path == r.path && rt.method == r.method && rt.query == r.rawQuery &&
    headersMatch rt.requestHeaders r.header

/-- The selection loop of `MockServer.ServeHTTP`: `routeFound` is
overwritten by every route that matches, so the last matching route in
registration order is kept. -/
def findRoute (routes : List Route) (r : Request) : Option Route :=
  routes.foldl (fun acc rt => if routeMatch rt r then some rt else acc) none

/-- The response written when no route matches: `WriteHeader(404)` and an
immediate return, so no headers are set and no body is written. -/
def notFoundResponse : Response :=
  { status := 404, headers := [], body := "" }

/-- `MockServer.ServeHTTP` as a function from the registry state and the
request to the response written: the last matching route is rendered with
its response headers, its status code (`200` when the code is `0`) and its
body; when nothing matches the result is `notFoundResponse`. -/
def serveHTTP (routes : List Route) (r : Request) : Response :=
  match findRoute routes r with
  | none => notFoundResponse
  | some rt =>
    { status := if rt.statusCode = 0 then 200 else rt.statusCode
      headers := rt.responseHeaders
      body := rt.body }

/-- `MockServer.Reset`: the route slice is replaced by a fresh empty one. -/
def Reset (_routes : List Route) : List Route := []

/-- Models the path / raw-query split that `net/url.Parse` performs on the
relative URI references used for stubs: the fragment after the first `#` is
cut off, then the first `?` separates the path from `RawQuery`.  webmock
reads only `url.Path`, `url.RawQuery` and `url.Host`, and `Host` is empty
for these relative references. -/
def parseURI (uri : String) : String × String :=
  let beforeFrag := (cutChar '#' uri.data).1
  let pq := cutChar '?' beforeFrag
  (⟨pq.1⟩, ⟨pq.2⟩)

/-- The route literal built by `MockServer.Stub` before the options are
applied: the unset fields keep their Go zero values. -/
def initRoute (method uri body : String) : Route :=
  { domain := ""
    method := method
    path := (parseURI uri).1
    query := (parseURI uri).2
    requestHeaders := []
    statusCode := 0
    body := body
    responseHeaders := [] }

/-- The route registered by one `MockServer.Stub` call: the initial route
with the functional options applied in the order given. -/
def stubRoute (method uri body : String) (options : List (Route → Route)) : Route :=
  options.foldl (fun r opt => opt r) (initRoute method uri body)

/-- `MockServer.Stub`: build the route from the arguments and append it to
the registry. -/
def Stub (routes : List Route) (method uri body : String)
    (options : List (Route → Route)) : List Route :=
  routes ++ [stubRoute method uri body options]

/-- Go map assignment `m[k] = v` on the association-list model: overwrite
the entry when the key is present, otherwise add it. -/
def mapInsert (m : List (String × String)) (k v : String) : List (String × String) :=
  if m.any (fun p => p.1 == k) then
    m.map (fun p => if p.1 == k then (k, v) else p)
  else
    m ++ [(k, v)]

/-- The loop of `WithHeaders`: each `;`-segment is split on `:` and the
first two pieces are indexed as `pair[0]` and `pair[1]`; `none` models the
index-out-of-range panic raised when a segment holds no colon. -/
def buildHeaderMap : List String → List (String × String) → Option (List (String × String))
  | [], m => some m
  | header :: rest, m =>
    match splitChar ':' header.data with
    | p0 :: p1 :: _ => buildHeaderMap rest (mapInsert m (trimSpace ⟨p0⟩) (trimSpace ⟨p1⟩))
    | _ => none

/-- `WithHeaders` of webmock.go: parse the `;`-separated `name: value`
list into a header map and set it as the route's required headers; `none`
models the panic on a segment with no colon. -/
def WithHeaders (headerStr : String) : Option (Route → Route) :=
  match buildHeaderMap ((splitChar ';' headerStr.data).map (fun l => (⟨l⟩ : String))) [] with
  | some m => some (fun r => { r with requestHeaders := m })
  | none => none

/-- Models `net/http.StatusText`: the standard reason phrase of a status
code, or `""` for a code the package does not know. -/
def statusText (code : Int) : String :=
  match code with
  | 100 => "Continue"
  | 101 => "Switching Protocols"
  | 102 => "Processing"
  | 103 => "Early Hints"
  | 200 => "OK"
  | 201 => "Created"
  | 202 => "Accepted"
  | 203 => "Non-Authoritative Information"
  | 204 => "No Content"
  | 205 => "Reset Content"
  | 206 => "Partial Content"
  | 207 => "Multi-Status"
  | 208 => "Already Reported"
  | 226 => "IM Used"
  | 300 => "Multiple Choices"
  | 301 => "Moved Permanently"
  | 302 => "Found"
  | 303 => "See Other"
  | 304 => "Not Modified"
  | 305 => "Use Proxy"
  | 307 => "Temporary Redirect"
  | 308 => "Permanent Redirect"
  | 400 => "Bad Request"
  | 401 => "Unauthorized"
  | 402 => "Payment Required"
  | 403 => "Forbidden"
  | 404 => "Not Found"
  | 405 => "Method Not Allowed"
  | 406 => "Not Acceptable"
  | 407 => "Proxy Authentication Required"
  | 408 => "Request Timeout"
  | 409 => "Conflict"
  | 410 => "Gone"
  | 411 => "Length Required"
  | 412 => "Precondition Failed"
  | 413 => "Request Entity Too Large"
  | 414 => "Request URI Too Long"
  | 415 => "Unsupported Media Type"
  | 416 => "Requested Range Not Satisfiable"
  | 417 => "Expectation Failed"
  | 418 => "I\x27m a teapot"
  | 421 => "Misdirected Request"
  | 422 => "Unprocessable Entity"
  | 423 => "Locked"
  | 424 => "Failed Dependency"
  | 425 => "Too Early"
  | 426 => "Upgrade Required"
  | 428 => "Precondition Required"
  | 429 => "Too Many Requests"
  | 431 => "Request Header Fields Too Large"
  | 451 => "Unavailable For Legal Reasons"
  | 500 => "Internal Server Error"
  | 501 => "Not Implemented"
  | 502 => "Bad Gateway"
  | 503 => "Service Unavailable"
  | 504 => "Gateway Timeout"
  | 505 => "HTTP Version Not Supported"
  | 506 => "Variant Also Negotiates"
  | 507 => "Insufficient Storage"
  | 508 => "Loop Detected"
  | 510 => "Not Extended"
  | 511 => "Network Authentication Required"
  | _ => ""

/-- `WithResponse` of webmock.go: set the status code only when
`http.StatusText(code)` is nonempty, the body only when the given body is
nonempty, and the response headers only when the given map is nonempty. -/
def WithResponse (code : Int) (response : String)
    (headers : List (String × String)) : Route → Route :=
  fun r =>
    let r1 := if (statusText code).length > 0 then { r with statusCode := code } else r
    let r2 := if response.length > 0 then { r1 with body := response } else r1
    if headers.length > 0 then { r2 with responseHeaders := headers } else r2

/-- The `request` part of a cassette document entry, as decoded from yaml
(`httpRequest` of webmock.go). -/
structure HttpRequestDoc where
  method : String
  path : String
  headers : List (String × String)
deriving DecidableEq, Repr

/-- The `response` part of a cassette document entry, as decoded from yaml
(`httpResponse` of webmock.go). -/
structure HttpResponseDoc where
  status : Int
  headers : List (String × String)
  body : String
deriving DecidableEq, Repr

/-- One cassette document entry (`cassetteRoute` of webmock.go). -/
structure CassetteRoute where
  request : HttpRequestDoc
  response : HttpResponseDoc
deriving DecidableEq, Repr

/-- Models Go `strings.ToUpper` on ASCII text (the range method names use). -/
def toUpperString (s : String) : String :=
  ⟨s.data.map Char.toUpper⟩

/-- `loadCassette` of webmock.go after yaml decoding: each entry becomes a
route with the method upper-cased, the path field split into path and raw
query, and the response copied.  The route literal in the source sets no
`requestHeaders`, so the decoded `Request.Headers` field is not used and
the field stays at its zero value (nil). -/
def loadCassette (cassettes : List CassetteRoute) : List Route :=
  cassettes.map (fun c =>
    { domain := ""
      path := (parseURI c.request.path).1
      method := toUpperString c.request.method
      query := (parseURI c.request.path).2
      requestHeaders := []
      statusCode := c.response.status
      body := c.response.body
      responseHeaders := c.response.headers })

/-- The matching predicate exactly as the specification words it (§4.2):
equal path, equal method, equal raw query, and every required header
carried by the request with exactly that value, where carrying follows
standard (case-insensitive) HTTP header lookup. -/
def specRouteMatches (rt : Route) (r : Request) : Prop :=
  rt.path = r.path ∧ rt.method = r.method ∧ rt.query = r.rawQuery ∧
  ∀ p ∈ rt.requestHeaders, headerGet r.header p.1 = p.2

/-- A sample route used to instantiate the theorems on concrete data. -/
def demoRoute : Route :=
  { domain := ""
    method := "GET"
    path := "/abc"
    query := ""
    requestHeaders := []
    statusCode := 0
    body := "ok"
    responseHeaders := [] }

/-- A second sample route, with an explicit status and response headers. -/
def demoRouteB : Route :=
  { domain := ""
    method := "GET"
    path := "/abc"
    query := ""
    requestHeaders := []
    statusCode := 500
    body := "Ah oh"
    responseHeaders := [("Content-Type", "application/xml")] }

/-- A sample request matching the sample routes. -/
def demoReq : Request :=
  { method := "GET", path := "/abc", rawQuery := "", header := [] }


instance (rt : Route) (r : Request) : Decidable (specRouteMatches rt r) := by
  unfold specRouteMatches
  exact inferInstance

/-- A cassette entry that specifies request headers. -/
def cassetteWithHeaders : CassetteRoute :=
  { request := { method := "get", path := "/hello", headers := [("Content-Type", "application/json")] }
    response := { status := 200, headers := [], body := "ok" } }

/-- A request for the cassette's path that carries none of the cassette's
request headers. -/
def bareHelloReq : Request :=
  { method := "GET", path := "/hello", rawQuery := "", header := [] }

/-- A route requiring one header, as the registry holds it after
`WithHeaders("Accept-Encoding: gzip,deflate")`. -/
def demoHdrRoute : Route :=
  { domain := ""
    method := "GET"
    path := "/get"
    query := ""
    requestHeaders := [("Accept-Encoding", "gzip,deflate")]
    statusCode := 0
    body := "ok with headers"
    responseHeaders := [] }

/-- A request carrying exactly the header `demoHdrRoute` requires. -/
def demoHdrReq : Request :=
  { method := "GET"
    path := "/get"
    rawQuery := ""
    header := [("Accept-Encoding", ["gzip,deflate"])] }

end Webmock

namespace Webmock

/-- The code predicate `routeMatch` holds exactly when the specification
predicate of §4.2 holds. -/
theorem routeMatch_iff_spec (rt : Route) (r : Request) :
    routeMatch rt r = true ↔ specRouteMatches rt r := by
  simp only [routeMatch, headersMatch, Bool.and_eq_true, beq_iff_eq,
    List.all_eq_true, specRouteMatches]
  constructor
  · rintro ⟨⟨⟨hp, hm⟩, hq⟩, hh⟩
    exact ⟨hp, hm, hq, fun p hp2 => (hh p hp2).symm⟩
  · rintro ⟨hp, hm, hq, hh⟩
    exact ⟨⟨⟨hp, hm⟩, hq⟩, fun p hp2 => (hh p hp2).symm⟩

/-- The selection loop returns a route exactly when some registered route
matches, for any initial accumulator. -/
theorem findRoute_foldl_isSome (r : Request) (l : List Route) :
    ∀ acc : Option Route,
      (l.foldl (fun a rt => if routeMatch rt r then some rt else a) acc).isSome = true ↔
        (∃ rt ∈ l, routeMatch rt r = true) ∨ acc.isSome = true := by
  induction l with
  | nil => intro acc; simp
  | cons hd tl ih =>
    intro acc
    rw [List.foldl_cons, ih]
    by_cases h : routeMatch hd r = true
    · simp [h]
    · simp [h]

/-- `findRoute` returns a route exactly when some registered route
matches. -/
theorem findRoute_isSome_iff (routes : List Route) (r : Request) :
    (findRoute routes r).isSome = true ↔ ∃ rt ∈ routes, routeMatch rt r = true := by
  rw [findRoute, findRoute_foldl_isSome]
  simp

/-- Appending a route to the registry: the new route wins when it matches,
otherwise the old selection stands. -/
theorem findRoute_snoc (l : List Route) (rt : Route) (r : Request) :
    findRoute (l ++ [rt]) r = if routeMatch rt r then some rt else findRoute l r := by
  simp [findRoute, List.foldl_append]

end Webmock

namespace Webmock

/-- C1: the matching engine selects some route if and only if a registered
route agrees with the request on path, method (case-sensitively) and the
raw query string byte-for-byte (an unset route query only matching an
empty raw query), and every required header is carried by the request with
exactly that value. -/
theorem matching_selects_iff_exists (routes : List Route) (r : Request) :
    (findRoute routes r).isSome = true ↔ ∃ rt ∈ routes, specRouteMatches rt r := by
  rw [findRoute_isSome_iff]
  exact exists_congr fun rt => and_congr_right fun _ => routeMatch_iff_spec rt r

/-- Witness for C1 at a concrete registry and request. -/
theorem matching_selects_iff_exists_witness :
    (findRoute [demoRoute] demoReq).isSome = true :=
  (matching_selects_iff_exists [demoRoute] demoReq).mpr ⟨demoRoute, by decide, by decide⟩

/-- C2: when a registry holds `r1` registered before `r2` and both match
the request, the rendered response takes `r2`'s status code, response
headers and body: the last matching route in registration order wins. -/
theorem last_matching_route_wins (l1 l2 : List Route) (r1 r2 : Route) (req : Request)
    (_h1 : routeMatch r1 req = true) (h2 : routeMatch r2 req = true) :
    serveHTTP (l1 ++ [r1] ++ l2 ++ [r2]) req =
      { status := if r2.statusCode = 0 then 200 else r2.statusCode
        headers := r2.responseHeaders
        body := r2.body } := by
  have hf : findRoute (l1 ++ [r1] ++ l2 ++ [r2]) req = some r2 := by
    rw [findRoute_snoc]
    simp [h2]
  unfold serveHTTP
  rw [hf]

/-- Witness for C2: two overlapping routes, the later one rendered. -/
theorem last_matching_route_wins_witness :
    serveHTTP ([] ++ [demoRoute] ++ [] ++ [demoRouteB]) demoReq =
      { status := 500, headers := [("Content-Type", "application/xml")], body := "Ah oh" } :=
  last_matching_route_wins [] [] demoRoute demoRouteB demoReq (by decide) (by decide)

/-- C3: a matched route renders with its status code when that code is
nonzero and with 200 when it is zero, with its body verbatim and with its
response headers set on the response. -/
theorem matched_route_renders (routes : List Route) (req : Request) (rt : Route)
    (h : findRoute routes req = some rt) :
    ((rt.statusCode ≠ 0 → (serveHTTP routes req).status = rt.statusCode) ∧
     (rt.statusCode = 0 → (serveHTTP routes req).status = 200)) ∧
    (serveHTTP routes req).body = rt.body ∧
    (serveHTTP routes req).headers = rt.responseHeaders := by
  have hs : serveHTTP routes req =
      { status := if rt.statusCode = 0 then 200 else rt.statusCode
        headers := rt.responseHeaders
        body := rt.body } := by
    simp [serveHTTP, h]
  rw [hs]
  refine ⟨⟨fun hne => ?_, fun he => ?_⟩, rfl, rfl⟩
  · simp [hne]
  · simp [he]

/-- Witness for C3 at a route with an explicit status code. -/
theorem matched_route_renders_witness :
    ((demoRouteB.statusCode ≠ 0 → (serveHTTP [demoRouteB] demoReq).status = demoRouteB.statusCode) ∧
     (demoRouteB.statusCode = 0 → (serveHTTP [demoRouteB] demoReq).status = 200)) ∧
    (serveHTTP [demoRouteB] demoReq).body = demoRouteB.body ∧
    (serveHTTP [demoRouteB] demoReq).headers = demoRouteB.responseHeaders :=
  matched_route_renders [demoRouteB] demoReq demoRouteB (by decide)

/-- C6: when no registered route matches the request the engine writes the
"not found" outcome, status 404 with an empty body; the empty registry is
the degenerate case. -/
theorem no_match_renders_not_found (routes : List Route) (req : Request)
    (h : ∀ rt ∈ routes, routeMatch rt req = false) :
    serveHTTP routes req = notFoundResponse ∧
    notFoundResponse.status = 404 ∧ notFoundResponse.body = "" := by
  have hnone : findRoute routes req = none := by
    rw [← Option.not_isSome_iff_eq_none, findRoute_isSome_iff]
    rintro ⟨rt, hmem, hmatch⟩
    rw [h rt hmem] at hmatch
    exact Bool.false_ne_true hmatch
  exact ⟨by simp [serveHTTP, hnone], rfl, rfl⟩

/-- Witness for C6: the empty registry renders 404 for any request. -/
theorem no_match_renders_not_found_witness :
    serveHTTP [] demoReq = notFoundResponse ∧
    notFoundResponse.status = 404 ∧ notFoundResponse.body = "" :=
  no_match_renders_not_found [] demoReq (by simp)

/-- C8: after `Reset` every request renders "not found", and registering a
route again after the reset restores, for the requests that route matches,
exactly the response the pre-reset registry (with that route registered
last) produced. -/
theorem reset_then_reregister (routes : List Route) (rt : Route) (req : Request)
    (hm : routeMatch rt req = true) :
    serveHTTP (Reset routes) req = notFoundResponse ∧
    serveHTTP (Reset routes ++ [rt]) req = serveHTTP (routes ++ [rt]) req := by
  constructor
  · rfl
  · have h1 : findRoute (Reset routes ++ [rt]) req = some rt := by
      rw [findRoute_snoc]; simp [hm]
    have h2 : findRoute (routes ++ [rt]) req = some rt := by
      rw [findRoute_snoc]; simp [hm]
    unfold serveHTTP
    rw [h1, h2]

/-- Witness for C8 at a concrete registry, route and request. -/
theorem reset_then_reregister_witness :
    serveHTTP (Reset [demoRoute]) demoReq = notFoundResponse ∧
    serveHTTP (Reset [demoRoute] ++ [demoRoute]) demoReq =
      serveHTTP ([demoRoute] ++ [demoRoute]) demoReq :=
  reset_then_reregister [demoRoute] demoRoute demoReq (by decide)

/-- C9: `Stub` appends exactly one route at the end, leaves every earlier
entry unchanged, and enforces no uniqueness: stubbing the same arguments
twice keeps both copies. -/
theorem stub_appends_exactly_one (routes : List Route) (method uri body : String)
    (options : List (Route → Route)) :
    (Stub routes method uri body options).length = routes.length + 1 ∧
    (∀ i : Nat, i < routes.length →
      (Stub routes method uri body options)[i]? = routes[i]?) ∧
    (Stub routes method uri body options)[routes.length]? =
      some (stubRoute method uri body options) ∧
    Stub (Stub routes method uri body options) method uri body options =
      routes ++ [stubRoute method uri body options, stubRoute method uri body options] := by
  refine ⟨by simp [Stub], fun i hi => ?_, ?_, by simp [Stub]⟩
  · rw [Stub, List.getElem?_append, if_pos hi]
  · rw [Stub, List.getElem?_append, if_neg (lt_irrefl _)]
    simp

/-- Witness for C9 at a concrete registry and stub call. -/
theorem stub_appends_exactly_one_witness :
    (Stub [demoRoute] "GET" "/get?foo=bar" "ok" []).length = 2 ∧
    (Stub [demoRoute] "GET" "/get?foo=bar" "ok" [])[0]? = [demoRoute][0]? ∧
    (Stub [demoRoute] "GET" "/get?foo=bar" "ok" [])[1]? =
      some (stubRoute "GET" "/get?foo=bar" "ok" []) :=
  ⟨(stub_appends_exactly_one [demoRoute] "GET" "/get?foo=bar" "ok" []).1,
   (stub_appends_exactly_one [demoRoute] "GET" "/get?foo=bar" "ok" []).2.1 0 (by decide),
   (stub_appends_exactly_one [demoRoute] "GET" "/get?foo=bar" "ok" []).2.2.1⟩

end Webmock

namespace Webmock

/-- A string has positive length exactly when it is nonempty. -/
theorem string_length_pos_iff (s : String) : 0 < s.length ↔ s ≠ "" := by
  rw [show s.length = s.data.length from rfl, List.length_pos]
  constructor
  · intro h he
    apply h
    rw [he]
  · intro h hd
    exact h (String.ext hd)

/-- `WithResponse` written as one record update: each field is replaced
exactly when its guard in the source holds. -/
theorem withResponse_fields (code : Int) (response : String)
    (headers : List (String × String)) (r : Route) :
    WithResponse code response headers r =
      { r with
        statusCode := if 0 < (statusText code).length then code else r.statusCode
        body := if 0 < response.length then response else r.body
        responseHeaders := if 0 < headers.length then headers else r.responseHeaders } := by
  by_cases h1 : 0 < (statusText code).length <;>
    by_cases h2 : 0 < response.length <;>
      by_cases h3 : 0 < headers.length <;>
        simp [WithResponse, h1, h2, h3]

/-- C4: the loader drops the request headers of a cassette entry — the
produced route has empty `requestHeaders` although the entry specifies
one, so a request carrying no headers is still matched and served. -/
theorem loadCassette_drops_request_headers :
    (loadCassette [cassetteWithHeaders]).map Route.requestHeaders = [[]] ∧
    cassetteWithHeaders.request.headers = [("Content-Type", "application/json")] ∧
    serveHTTP (loadCassette [cassetteWithHeaders]) bareHelloReq =
      { status := 200, headers := [], body := "ok" } := by
  refine ⟨rfl, rfl, by decide⟩

/-- C5 counterexample: the status code 1 is nonzero, yet applying the
override leaves the route's status code unchanged (0, not 1), because
`http.StatusText(1)` is empty. -/
theorem withResponse_nonzero_code_not_set :
    (WithResponse 1 "b" [("A", "v")] demoRoute).statusCode = 0 ∧ (1 : Int) ≠ 0 := by
  exact ⟨by decide, by decide⟩

/-- C5 (amended): the override sets the status code exactly when the code
has a standard reason phrase (so zero and unrecognised codes leave it
unchanged), sets the body exactly when nonempty, sets the response headers
exactly when nonempty, and changes nothing else on the route. -/
theorem withResponse_option_semantics (code : Int) (response : String)
    (headers : List (String × String)) (r : Route) :
    (statusText code = "" → (WithResponse code response headers r).statusCode = r.statusCode) ∧
    (statusText code ≠ "" → (WithResponse code response headers r).statusCode = code) ∧
    (response = "" → (WithResponse code response headers r).body = r.body) ∧
    (response ≠ "" → (WithResponse code response headers r).body = response) ∧
    (headers = [] → (WithResponse code response headers r).responseHeaders = r.responseHeaders) ∧
    (headers ≠ [] → (WithResponse code response headers r).responseHeaders = headers) ∧
    statusText 0 = "" ∧
    (WithResponse code response headers r).method = r.method ∧
    (WithResponse code response headers r).path = r.path ∧
    (WithResponse code response headers r).query = r.query ∧
    (WithResponse code response headers r).requestHeaders = r.requestHeaders := by
  rw [withResponse_fields]
  refine ⟨?_, ?_, ?_, ?_, ?_, ?_, rfl, rfl, rfl, rfl, rfl⟩
  · intro hc
    have hx : ¬ 0 < (statusText code).length := by rw [hc]; decide
    simp [hx]
  · intro hc
    have hx : 0 < (statusText code).length := (string_length_pos_iff _).mpr hc
    simp [hx]
  · intro hr
    have hx : ¬ 0 < response.length := by rw [hr]; decide
    simp [hx]
  · intro hr
    have hx : 0 < response.length := (string_length_pos_iff _).mpr hr
    simp [hx]
  · intro hh
    have hx : ¬ 0 < headers.length := by rw [hh]; decide
    simp [hx]
  · intro hh
    have hx : 0 < headers.length := List.length_pos.mpr hh
    simp [hx]

/-- Witness for C5's amended statement: a recognised nonzero code is set. -/
theorem withResponse_option_semantics_witness :
    (WithResponse 500 "Ah oh" [("Content-Type", "application/xml")] demoRoute).statusCode = 500 :=
  (withResponse_option_semantics 500 "Ah oh" [("Content-Type", "application/xml")] demoRoute).2.1
    (by decide)

end Webmock

namespace Webmock

/-- Appending a value to the entries of one name leaves `find?` for a
different name untouched: the entry found, if any, is unchanged. -/
theorem find?_map_other_name (cn ck : String) (v : String) (hne : ck ≠ cn) :
    ∀ h : Header,
      (h.map (fun p => if p.1 == cn then (p.1, p.2 ++ [v]) else p)).find?
          (fun p => p.1 == ck) =
        h.find? (fun p => p.1 == ck) := by
  intro h
  induction h with
  | nil => rfl
  | cons hd tl ih =>
    by_cases hck : (hd.1 == ck) = true
    · have hname : hd.1 = ck := beq_iff_eq.mp hck
      have hcn : (hd.1 == cn) = false := by
        rw [beq_eq_false_iff_ne, hname]
        exact hne
      have hmap : (if hd.1 == cn then (hd.1, hd.2 ++ [v]) else hd) = hd := by
        simp only [hcn, Bool.false_eq_true, if_false]
      rw [List.map_cons, hmap,
        @List.find?_cons_of_pos _ (fun p => p.1 == ck) hd _ hck,
        @List.find?_cons_of_pos _ (fun p => p.1 == ck) hd _ hck]
    · have hckf : (hd.1 == ck) = false := by
        simp only [Bool.not_eq_true] at hck
        exact hck
      have hck2 : ¬ ((if hd.1 == cn then (hd.1, hd.2 ++ [v]) else hd).1 == ck) = true := by
        by_cases hcn : (hd.1 == cn) = true <;> simp [hcn, hckf]
      rw [List.map_cons,
        @List.find?_cons_of_neg _ (fun p => p.1 == ck)
          (if hd.1 == cn then (hd.1, hd.2 ++ [v]) else hd) _ hck2,
        @List.find?_cons_of_neg _ (fun p => p.1 == ck) hd _ hck]
      exact ih

/-- `http.Header.Add` of a name with a different canonical form does not
change `http.Header.Get` of a key. -/
theorem headerGet_headerAdd_ne (h : Header) (n v k : String)
    (hne : canonicalMIMEHeaderKey k ≠ canonicalMIMEHeaderKey n) :
    headerGet (headerAdd h n v) k = headerGet h k := by
  unfold headerGet headerAdd
  by_cases hex : h.any (fun p => p.1 == canonicalMIMEHeaderKey n)
  · rw [if_pos hex, find?_map_other_name (canonicalMIMEHeaderKey n) (canonicalMIMEHeaderKey k) v hne h]
  · rw [if_neg hex, List.find?_append]
    have hnone : ([(canonicalMIMEHeaderKey n, [v])].find?
        (fun p => p.1 == canonicalMIMEHeaderKey k)) = none := by
      have : (canonicalMIMEHeaderKey n == canonicalMIMEHeaderKey k) = false :=
        beq_eq_false_iff_ne.mpr fun he => hne he.symm
      simp [List.find?_cons, this]
    rw [hnone]
    cases h.find? (fun p => p.1 == canonicalMIMEHeaderKey k) <;> rfl

/-- C7: a route that matches a request still matches after a header whose
canonical name is not among the required names (the claim's "not listed",
read with its own case-insensitive lookup rule) is added to the request;
name lookup is case-insensitive (`Get` depends only on the canonical key),
while the required value must match exactly — requiring
`Accept-Encoding: gzip,deflate` rejects a request carrying only `gzip`. -/
theorem header_matching_monotone (rt : Route) (req : Request) (n v k1 k2 : String)
    (hh2 : Header)
    (hmatch : routeMatch rt req = true)
    (hnew : ∀ p ∈ rt.requestHeaders, canonicalMIMEHeaderKey p.1 ≠ canonicalMIMEHeaderKey n)
    (hc : canonicalMIMEHeaderKey k1 = canonicalMIMEHeaderKey k2) :
    routeMatch rt { req with header := headerAdd req.header n v } = true ∧
    headerGet hh2 k1 = headerGet hh2 k2 ∧
    headersMatch [("Accept-Encoding", "gzip,deflate")] [("Accept-Encoding", ["gzip"])] = false := by
  refine ⟨?_, ?_, by decide⟩
  · rw [routeMatch, Bool.and_eq_true, Bool.and_eq_true, Bool.and_eq_true] at hmatch ⊢
    obtain ⟨⟨⟨hp, hm⟩, hq⟩, hhm⟩ := hmatch
    refine ⟨⟨⟨hp, hm⟩, hq⟩, ?_⟩
    rw [headersMatch, List.all_eq_true] at hhm ⊢
    intro p hp2
    have hget : headerGet (headerAdd req.header n v) p.1 = headerGet req.header p.1 :=
      headerGet_headerAdd_ne req.header n v p.1 (hnew p hp2)
    show (p.2 == headerGet (headerAdd req.header n v) p.1) = true
    rw [hget]
    exact hhm p hp2
  · unfold headerGet
    rw [hc]

/-- Witness for C7: adding an unrelated header preserves the match, and
lookup of the same name in different case agrees. -/
theorem header_matching_monotone_witness :
    routeMatch demoHdrRoute
      { demoHdrReq with header := headerAdd demoHdrReq.header "X-Extra" "1" } = true ∧
    headerGet [("Accept-Encoding", ["gzip,deflate"])] "accept-encoding" =
      headerGet [("Accept-Encoding", ["gzip,deflate"])] "Accept-Encoding" ∧
    headersMatch [("Accept-Encoding", "gzip,deflate")] [("Accept-Encoding", ["gzip"])] = false :=
  header_matching_monotone demoHdrRoute demoHdrReq "X-Extra" "1" "accept-encoding"
    "Accept-Encoding" [("Accept-Encoding", ["gzip,deflate"])] (by decide) (by decide) (by decide)

end Webmock

namespace Webmock

/-- Splitting never yields an empty list of segments. -/
theorem splitChar_ne_nil (sep : Char) : ∀ l : List Char, splitChar sep l ≠ [] := by
  intro l
  cases l with
  | nil => simp [splitChar]
  | cons c cs =>
    simp only [splitChar]
    by_cases h : c = sep <;> simp [h]

/-- The number of segments is the separator count plus one. -/
theorem splitChar_length (sep : Char) :
    ∀ l : List Char, (splitChar sep l).length = l.count sep + 1 := by
  intro l
  induction l with
  | nil => rfl
  | cons c cs ih =>
    simp only [splitChar]
    by_cases h : c = sep
    · have hb : (c == sep) = true := beq_iff_eq.mpr h
      simp [h, List.count_cons, hb, ih]
    · have hb : (c == sep) = false := beq_eq_false_iff_ne.mpr h
      cases hr : splitChar sep cs with
      | nil => exact absurd hr (splitChar_ne_nil sep cs)
      | cons a as =>
        rw [hr] at ih
        simp [h, hr, List.count_cons, hb] at ih ⊢
        omega

/-- A `:`-split has a second piece exactly when the text holds a colon. -/
theorem splitColon_two_iff (cs : List Char) :
    (∃ p0 p1 rest, splitChar ':' cs = p0 :: p1 :: rest) ↔ ':' ∈ cs := by
  rw [← List.count_pos_iff (a := ':') (l := cs)]
  constructor
  · rintro ⟨p0, p1, rest, hs⟩
    have hlen := splitChar_length ':' cs
    rw [hs] at hlen
    simp only [List.length_cons] at hlen
    omega
  · intro hpos
    have hlen := splitChar_length ':' cs
    cases hs : splitChar ':' cs with
    | nil => exact absurd hs (splitChar_ne_nil ':' cs)
    | cons a t =>
      cases t with
      | nil =>
        rw [hs] at hlen
        simp only [List.length_cons, List.length_nil] at hlen
        omega
      | cons b t2 => exact ⟨a, b, t2, rfl⟩

/-- `buildHeaderMap` succeeds exactly when every segment holds a colon,
whatever map has been accumulated. -/
theorem buildHeaderMap_isSome :
    ∀ (l : List String) (m : List (String × String)),
      (buildHeaderMap l m).isSome = true ↔ ∀ s ∈ l, ':' ∈ s.data := by
  intro l
  induction l with
  | nil => intro m; simp [buildHeaderMap]
  | cons hd tl ih =>
    intro m
    simp only [buildHeaderMap]
    cases hs : splitChar ':' hd.data with
    | nil => exact absurd hs (splitChar_ne_nil ':' hd.data)
    | cons p0 t =>
      cases t with
      | nil =>
        simp only [hs, Option.isSome_none, List.mem_cons]
        constructor
        · intro hfalse
          exact absurd hfalse (by decide)
        · intro hall
          have hmem : ':' ∈ hd.data := hall hd (Or.inl rfl)
          obtain ⟨q0, q1, rest, hq⟩ := (splitColon_two_iff hd.data).mpr hmem
          rw [hs] at hq
          simp at hq
      | cons p1 t2 =>
        have hmem : ':' ∈ hd.data := (splitColon_two_iff hd.data).mp ⟨p0, p1, t2, hs⟩
        show (buildHeaderMap tl (mapInsert m (trimSpace ⟨p0⟩) (trimSpace ⟨p1⟩))).isSome = true ↔
          ∀ s ∈ hd :: tl, ':' ∈ s.data
        simp only [List.mem_cons]
        rw [ih]
        constructor
        · intro hall s hsmem
          rcases hsmem with he | hm2
          · rw [he]; exact hmem
          · exact hall s hm2
        · intro hall s hsmem
          exact hall s (Or.inr hsmem)

/-- C10: `WithHeaders` is partial: it panics (modelled by `none`) exactly
on header strings in which some `;`-segment holds no colon — the empty
string being such an input — and succeeds exactly when every segment holds
at least one colon. -/
theorem withHeaders_panics_without_colon (s : String) :
    WithHeaders "" = none ∧
    ((WithHeaders s).isSome = true ↔ ∀ seg ∈ splitChar ';' s.data, ':' ∈ seg) := by
  constructor
  · rfl
  · have key : (WithHeaders s).isSome =
        (buildHeaderMap ((splitChar ';' s.data).map (fun l => (⟨l⟩ : String))) []).isSome := by
      unfold WithHeaders
      cases hb : buildHeaderMap ((splitChar ';' s.data).map (fun l => (⟨l⟩ : String))) [] <;>
        simp [hb]
    rw [key, buildHeaderMap_isSome]
    constructor
    · intro hall seg hmem
      exact hall ⟨seg⟩ (List.mem_map.mpr ⟨seg, hmem, rfl⟩)
    · intro hall s2 hs2
      obtain ⟨seg, hmem, he⟩ := List.mem_map.mp hs2
      rw [← he]
      exact hall seg hmem

/-- Witness for C10: a well-formed header string is accepted. -/
theorem withHeaders_panics_without_colon_witness :
    (WithHeaders "Content-Type: application/json").isSome = true :=
  (withHeaders_panics_without_colon "Content-Type: application/json").2.mpr (by decide)

end Webmock
